import Mathlib

/-!
Verification of the UptimeMonitor ledger state machine
(`packages/contracts` Solidity contract `UptimeMonitor`), of the
RewardToken ERC20 calls it makes (the RewardToken source is embedded in
`src/packages/contracts/scripts/deploy.js`), and of the observer node
HTTP probe (`packages/monitoring-node/src/services/MonitoringNode.js`).

The contract state is embedded shallowly: Solidity mappings become Lean
functions with pointwise update, dynamic arrays become lists, `uint256`
becomes `Nat` (no operation here can overflow 2^256 on reachable inputs,
and the source arithmetic is plain addition, bounded subtraction and
division), and `revert` becomes the `Except.error` branch of a
state-transformer of type `ChainState → Except String ChainState`.
Emitted events are accumulated in an append-only log inside the state.
Addresses are natural numbers, with 0 playing the role of `address(0)`;
the UptimeMonitor contract itself lives at a fixed nonzero address.
-/

namespace UptimeMonitor

/-- Account addresses, abstracted as natural numbers. -/
abbrev Addr := Nat

/-- The address of the UptimeMonitor contract itself (custody account
for stakes and rewards, and the `msg.sender` of every token call the
state machine makes).  Any fixed nonzero address works; callers of the
external functions are other accounts, and 0 models `address(0)`. -/
def contractAddr : Addr := 10

/-- Events emitted by the contract, mirroring the `event` declarations. -/
inductive Event where
  | MonitoringNodeRegistered (node : Addr) (stake : Nat)
  | MonitoringNodeUnregistered (node : Addr)
  | MonitoringRequestCreated (requestId : Nat) (requester : Addr) (url : String)
  | MonitoringResultSubmitted (requestId : Nat) (node : Addr) (isUp : Bool) (responseTime : Nat)
  | ConsensusReached (requestId : Nat) (isUp : Bool) (averageResponseTime : Nat)
  | RewardDistributed (node : Addr) (amount : Nat)
  | PenaltyApplied (node : Addr) (amount : Nat)
deriving DecidableEq

/-- `struct MonitoringNode` of the contract. -/
structure MonitoringNode where
  nodeAddress : Addr
  stake : Nat
  reputation : Nat
  totalChecks : Nat
  successfulChecks : Nat
  isActive : Bool
  registrationTime : Nat
deriving DecidableEq

/-- The all-zero value a Solidity mapping yields for an absent key. -/
def MonitoringNode.empty : MonitoringNode :=
  ⟨0, 0, 0, 0, 0, false, 0⟩

/-- `struct MonitoringRequest` of the contract. -/
structure MonitoringRequest where
  id : Nat
  requester : Addr
  url : String
  interval : Nat
  timeout : Nat
  reward : Nat
  isActive : Bool
  createdAt : Nat
  lastCheckedAt : Nat
deriving DecidableEq

/-- The all-zero value a Solidity mapping yields for an absent key. -/
def MonitoringRequest.empty : MonitoringRequest :=
  ⟨0, 0, "", 0, 0, 0, false, 0, 0⟩

/-- `struct MonitoringResult` of the contract. -/
structure MonitoringResult where
  node : Addr
  isUp : Bool
  responseTime : Nat
  timestamp : Nat
  isSubmitted : Bool
deriving DecidableEq

/-- The all-zero value a Solidity mapping yields for an absent key. -/
def MonitoringResult.empty : MonitoringResult :=
  ⟨0, false, 0, 0, false⟩

/-- Pointwise update of a mapping, the semantics of a Solidity
`mapping` assignment. -/
def updFn {κ : Type} {α : Type} [DecidableEq κ] (m : κ → α) (k : κ) (v : α) : κ → α :=
  fun x => if x = k then v else m x

/-- The full storage of the `UptimeMonitor` contract, together with the
balance ledger of the reward token and the emitted-event log. -/
structure ChainState where
  balances : Addr → Nat
  allowances : Addr → Addr → Nat
  minimumStake : Nat
  consensusThreshold : Nat
  maxResponseTime : Nat
  nextRequestId : Nat
  monitoringNodes : Addr → MonitoringNode
  monitoringRequests : Nat → MonitoringRequest
  monitoringResults : Nat → Addr → MonitoringResult
  requestNodes : Nat → List Addr
  nodeRequests : Addr → List Nat
  activeNodes : List Addr
  activeRequests : List Nat
  owner : Addr
  paused : Bool
  events : List Event

/-- `type(uint256).max`; an allowance of this value is treated as
infinite by ERC20 `_spendAllowance` and never decremented. -/
def maxUint256 : Nat := 2 ^ 256 - 1

/-- The RewardToken contract (its source is embedded in
`src/packages/contracts/scripts/deploy.js`) is an OpenZeppelin v5
`ERC20, ERC20Burnable, Ownable` with a mint-authorization list; the
state machine only ever calls its inherited `transfer`, `transferFrom`
and `balanceOf`.  This is `transfer(dst, value)` as executed with
`msg.sender = src`, i.e. `_transfer`/`_update`: revert on the zero
address as sender or receiver and on insufficient balance, otherwise
move `value` from `src` to `dst`. -/
def erc20Transfer (src dst : Addr) (value : Nat) (bal : Addr → Nat) :
    Except String (Addr → Nat) :=
  if src = 0 then .error "ERC20InvalidSender"
  else if dst = 0 then .error "ERC20InvalidReceiver"
  else if bal src < value then .error "ERC20InsufficientBalance"
  else
    let b1 := updFn bal src (bal src - value)
    .ok (updFn b1 dst (b1 dst + value))

/-- ERC20 `_spendAllowance(src, spender, value)`: an allowance of
`maxUint256` is infinite; otherwise the spender needs a sufficient
allowance, which is decremented. -/
def spendAllowance (src spender : Addr) (value : Nat)
    (allow : Addr → Addr → Nat) : Except String (Addr → Addr → Nat) :=
  if allow src spender = maxUint256 then .ok allow
  else if allow src spender < value then .error "ERC20InsufficientAllowance"
  else .ok (updFn allow src (updFn (allow src) spender (allow src spender - value)))

/-- ERC20 `transferFrom(src, dst, value)` as called by the UptimeMonitor
contract (so `spender` is the calling contract): spend the allowance,
then transfer. -/
def erc20TransferFrom (spender src dst : Addr) (value : Nat) (bal : Addr → Nat)
    (allow : Addr → Addr → Nat) :
    Except String ((Addr → Nat) × (Addr → Addr → Nat)) :=
  match spendAllowance src spender value allow with
  | .error e => .error e
  | .ok allow2 =>
    match erc20Transfer src dst value bal with
    | .error e => .error e
    | .ok bal2 => .ok (bal2, allow2)

/-- `registerNode()` — `nonReentrant whenNotPaused`, rejects double
registration, pulls `minimumStake` into contract custody, creates the
node record with reputation 100 and appends the node to `activeNodes`. -/
def registerNode (sender : Addr) (ts : Nat) (s : ChainState) :
    Except String ChainState :=
  if s.paused then .error "EnforcedPause"
  else if (s.monitoringNodes sender).isActive then .error "Node already registered"
  else
    match erc20TransferFrom contractAddr sender contractAddr s.minimumStake
        s.balances s.allowances with
    | .error e => .error e
    | .ok ba =>
      .ok { s with
        balances := ba.1
        allowances := ba.2
        monitoringNodes := updFn s.monitoringNodes sender
          ⟨sender, s.minimumStake, 100, 0, 0, true, ts⟩
        activeNodes := s.activeNodes ++ [sender]
        events := s.events ++ [.MonitoringNodeRegistered sender s.minimumStake] }

/-- The `activeNodes` removal loop of `unregisterNode` /
`deactivateMonitoringRequest`: find the first occurrence, overwrite it
with the last element and pop (swap-with-last-and-pop). -/
def swapPopRemove {α : Type} [DecidableEq α] (l : List α) (a : α) : List α :=
  match l.findIdx? (fun x => x = a) with
  | none => l
  | some i => (l.set i ((l.getLast?).getD a)).dropLast

/-- `unregisterNode()` — `nonReentrant onlyRegisteredNode`, requires a
positive stake, zeroes the stake, deactivates the record, swap-pops the
address out of `activeNodes` and returns the full stake. -/
def unregisterNode (sender : Addr) (s : ChainState) : Except String ChainState :=
  if !(s.monitoringNodes sender).isActive then .error "Node not registered or inactive"
  else
    let node := s.monitoringNodes sender
    if node.stake = 0 then .error "No stake to withdraw"
    else
      match erc20Transfer contractAddr sender node.stake s.balances with
      | .error e => .error e
      | .ok bal =>
        .ok { s with
          balances := bal
          monitoringNodes := updFn s.monitoringNodes sender
            { node with stake := 0, isActive := false }
          activeNodes := swapPopRemove s.activeNodes sender
          events := s.events ++ [.MonitoringNodeUnregistered sender] }

/-- `addStake(uint256)` — `nonReentrant onlyRegisteredNode`, requires a
positive amount, pulls it into custody and adds it to the stake. -/
def addStake (sender : Addr) (amount : Nat) (s : ChainState) :
    Except String ChainState :=
  if !(s.monitoringNodes sender).isActive then .error "Node not registered or inactive"
  else if amount = 0 then .error "Amount must be greater than 0"
  else
    match erc20TransferFrom contractAddr sender contractAddr amount
        s.balances s.allowances with
    | .error e => .error e
    | .ok ba =>
      let node := s.monitoringNodes sender
      .ok { s with
        balances := ba.1
        allowances := ba.2
        monitoringNodes := updFn s.monitoringNodes sender
          { node with stake := node.stake + amount } }

/-- `_assignNodesToRequest` — assigns the first
`min(3, activeNodes.length)` active nodes as the committee of the fresh
request, reverting when the active set is empty. -/
def assignNodesToRequest (requestId : Nat) (s : ChainState) :
    Except String ChainState :=
  let nodesToAssign := if 3 ≤ s.activeNodes.length then 3 else s.activeNodes.length
  if nodesToAssign = 0 then .error "No active nodes available"
  else
    let committee := s.activeNodes.take nodesToAssign
    .ok { s with
      requestNodes := updFn s.requestNodes requestId
        (s.requestNodes requestId ++ committee)
      nodeRequests := committee.foldl
        (fun m a => updFn m a (m a ++ [requestId])) s.nodeRequests }

/-- `createMonitoringRequest(url, interval, timeout, rewardPerCheck)` —
`nonReentrant whenNotPaused`, validates the four parameters, allocates
the next request id, stores the request record, indexes it as active and
assigns the committee.  Returns the new state and the allocated id. -/
def createMonitoringRequest (sender ts : Nat) (url : String)
    (interval timeout rewardPerCheck : Nat) (s : ChainState) :
    Except String (ChainState × Nat) :=
  if s.paused then .error "EnforcedPause"
  else if url.length = 0 then .error "URL cannot be empty"
  else if interval < 60 then .error "Interval must be at least 60 seconds"
  else if s.maxResponseTime < timeout then .error "Timeout too high"
  else if rewardPerCheck = 0 then .error "Reward must be greater than 0"
  else
    let requestId := s.nextRequestId
    let s1 : ChainState := { s with
      nextRequestId := s.nextRequestId + 1
      monitoringRequests := updFn s.monitoringRequests requestId
        ⟨requestId, sender, url, interval, timeout, rewardPerCheck, true, ts, ts⟩
      activeRequests := s.activeRequests ++ [requestId] }
    match assignNodesToRequest requestId s1 with
    | .error e => .error e
    | .ok s2 =>
      .ok ({ s2 with
        events := s2.events ++ [.MonitoringRequestCreated requestId sender url] },
        requestId)

/-- `_isNodeAssignedToRequest` — linear scan of the committee. -/
def isNodeAssignedToRequest (s : ChainState) (requestId : Nat) (node : Addr) : Bool :=
  (s.requestNodes requestId).contains node

/-- The store performed by `submitMonitoringResult`:
`monitoringResults[requestId][sender] = MonitoringResult(sender, isUp,
responseTime, ts, true)`. -/
def recordResult (requestId : Nat) (sender : Addr) (isUp : Bool)
    (responseTime ts : Nat) (m : Nat → Addr → MonitoringResult) :
    Nat → Addr → MonitoringResult :=
  updFn m requestId (updFn (m requestId) sender ⟨sender, isUp, responseTime, ts, true⟩)

/-- Number of submitted results among the committee, the
`submittedCount` accumulator of `_checkConsensus`. -/
def countSubmitted (resultsAt : Addr → MonitoringResult) (nodes : List Addr) : Nat :=
  (nodes.filter (fun a => (resultsAt a).isSubmitted)).length

/-- Number of submitted `isUp = true` results among the committee, the
`upCount` accumulator of `_checkConsensus`. -/
def countUp (resultsAt : Addr → MonitoringResult) (nodes : List Addr) : Nat :=
  (nodes.filter (fun a => (resultsAt a).isSubmitted && (resultsAt a).isUp)).length

/-- Sum of the submitted response times, the `totalResponseTime`
accumulator of `_checkConsensus`. -/
def totalResponseTime (resultsAt : Addr → MonitoringResult) (nodes : List Addr) : Nat :=
  (nodes.map (fun a => if (resultsAt a).isSubmitted then (resultsAt a).responseTime else 0)).sum

/-- The consensus value and average response time `_checkConsensus`
computes once the committee has fully reported:
`consensusIsUp = (upCount * 100) >= (submittedCount * consensusThreshold)`
and `averageResponseTime = totalResponseTime / submittedCount`
(integer division; 0 for an empty committee). -/
def consensusOutcome (threshold : Nat) (resultsAt : Addr → MonitoringResult)
    (nodes : List Addr) : Bool × Nat :=
  let submittedCount := countSubmitted resultsAt nodes
  (decide (submittedCount * threshold ≤ countUp resultsAt nodes * 100),
   if 0 < submittedCount then totalResponseTime resultsAt nodes / submittedCount else 0)

/-- The body of the `_distributeRewards` loop for one committee member:
an agreeing submitted member gets `successfulChecks+1`, `reputation+1`
and a `reward` transfer from custody; a disagreeing one loses 1
reputation unless already at the floor of 1 and gets no transfer; an
unsubmitted member is skipped. -/
def settleNode (requestId : Nat) (consensusResult : Bool) (reward : Nat)
    (nodeAddress : Addr) (s : ChainState) : Except String ChainState :=
  let result := s.monitoringResults requestId nodeAddress
  if result.isSubmitted then
    if result.isUp = consensusResult then
      let node := s.monitoringNodes nodeAddress
      let s1 : ChainState := { s with
        monitoringNodes := updFn s.monitoringNodes nodeAddress
          { node with
            successfulChecks := node.successfulChecks + 1
            reputation := node.reputation + 1 } }
      match erc20Transfer contractAddr nodeAddress reward s1.balances with
      | .error e => .error e
      | .ok bal =>
        .ok { s1 with
          balances := bal
          events := s1.events ++ [.RewardDistributed nodeAddress reward] }
    else
      let node := s.monitoringNodes nodeAddress
      let s1 : ChainState := { s with
        monitoringNodes :=
          if 1 < node.reputation then
            updFn s.monitoringNodes nodeAddress
              { node with reputation := node.reputation - 1 }
          else s.monitoringNodes }
      .ok { s1 with events := s1.events ++ [.PenaltyApplied nodeAddress 0] }
  else .ok s

/-- The `_distributeRewards` loop over the committee list. -/
def distributeRewardsLoop (requestId : Nat) (consensusResult : Bool) (reward : Nat)
    (nodes : List Addr) (s : ChainState) : Except String ChainState :=
  match nodes with
  | [] => .ok s
  | nodeAddress :: rest =>
    match settleNode requestId consensusResult reward nodeAddress s with
    | .error e => .error e
    | .ok s1 => distributeRewardsLoop requestId consensusResult reward rest s1

/-- `_distributeRewards(requestId, consensusResult)`. -/
def distributeRewards (requestId : Nat) (consensusResult : Bool) (s : ChainState) :
    Except String ChainState :=
  distributeRewardsLoop requestId consensusResult
    (s.monitoringRequests requestId).reward (s.requestNodes requestId) s

/-- `_checkConsensus(requestId)` — counts the submitted results over the
committee; when every committee member has reported, emits
`ConsensusReached`, settles rewards and stamps `lastCheckedAt`. -/
def checkConsensus (requestId ts : Nat) (s : ChainState) : Except String ChainState :=
  let nodes := s.requestNodes requestId
  let submittedCount := countSubmitted (s.monitoringResults requestId) nodes
  if submittedCount = nodes.length then
    let outcome := consensusOutcome s.consensusThreshold (s.monitoringResults requestId) nodes
    let s1 : ChainState := { s with
      events := s.events ++ [.ConsensusReached requestId outcome.1 outcome.2] }
    match distributeRewards requestId outcome.1 s1 with
    | .error e => .error e
    | .ok s2 =>
      .ok { s2 with
        monitoringRequests := updFn s2.monitoringRequests requestId
          { s2.monitoringRequests requestId with lastCheckedAt := ts } }
  else .ok s

/-- `submitMonitoringResult(requestId, isUp, responseTime)` —
`onlyRegisteredNode validRequest nonReentrant`, rejects duplicate
submissions and non-committee callers, records the result, increments
`totalChecks`, emits the submission event and runs `_checkConsensus`. -/
def submitMonitoringResult (sender : Addr) (ts requestId : Nat) (isUp : Bool)
    (responseTime : Nat) (s : ChainState) : Except String ChainState :=
  if !(s.monitoringNodes sender).isActive then .error "Node not registered or inactive"
  else if !(0 < requestId ∧ requestId < s.nextRequestId : Prop) then .error "Invalid request ID"
  else if !(s.monitoringRequests requestId).isActive then .error "Request not active"
  else if (s.monitoringResults requestId sender).isSubmitted then .error "Result already submitted"
  else if !(isNodeAssignedToRequest s requestId sender) then .error "Node not assigned to this request"
  else
    let node := s.monitoringNodes sender
    let s1 : ChainState := { s with
      monitoringResults := recordResult requestId sender isUp responseTime ts s.monitoringResults
      monitoringNodes := updFn s.monitoringNodes sender
        { node with totalChecks := node.totalChecks + 1 }
      events := s.events ++ [.MonitoringResultSubmitted requestId sender isUp responseTime] }
    checkConsensus requestId ts s1

/-- `deactivateMonitoringRequest(requestId)` — `validRequest`, callable
by the requester or the owner; flips `isActive` off and swap-pops the id
out of `activeRequests`. -/
def deactivateMonitoringRequest (sender requestId : Nat) (s : ChainState) :
    Except String ChainState :=
  if !(0 < requestId ∧ requestId < s.nextRequestId : Prop) then .error "Invalid request ID"
  else if !(s.monitoringRequests requestId).isActive then .error "Request not active"
  else if sender ≠ (s.monitoringRequests requestId).requester ∧ sender ≠ s.owner then
    .error "Not authorized"
  else
    .ok { s with
      monitoringRequests := updFn s.monitoringRequests requestId
        { s.monitoringRequests requestId with isActive := false }
      activeRequests := swapPopRemove s.activeRequests requestId }

/-- `setMinimumStake(uint256)` — `onlyOwner`. -/
def setMinimumStake (sender amount : Nat) (s : ChainState) : Except String ChainState :=
  if sender ≠ s.owner then .error "OwnableUnauthorizedAccount"
  else .ok { s with minimumStake := amount }

/-- `setConsensusThreshold(uint256)` — `onlyOwner`, bounded to [51,100]. -/
def setConsensusThreshold (sender threshold : Nat) (s : ChainState) :
    Except String ChainState :=
  if sender ≠ s.owner then .error "OwnableUnauthorizedAccount"
  else if !(51 ≤ threshold ∧ threshold ≤ 100 : Prop) then
    .error "Threshold must be between 51-100"
  else .ok { s with consensusThreshold := threshold }

/-- `pause()` — `onlyOwner`; OpenZeppelin `_pause` reverts when already
paused. -/
def pause (sender : Nat) (s : ChainState) : Except String ChainState :=
  if sender ≠ s.owner then .error "OwnableUnauthorizedAccount"
  else if s.paused then .error "EnforcedPause"
  else .ok { s with paused := true }

/-- `unpause()` — `onlyOwner`; OpenZeppelin `_unpause` reverts when not
paused. -/
def unpause (sender : Nat) (s : ChainState) : Except String ChainState :=
  if sender ≠ s.owner then .error "OwnableUnauthorizedAccount"
  else if !s.paused then .error "ExpectedPause"
  else .ok { s with paused := false }

/-- `emergencyWithdraw()` — `onlyOwner`, sweeps the whole custody balance
to the owner. -/
def emergencyWithdraw (sender : Nat) (s : ChainState) : Except String ChainState :=
  if sender ≠ s.owner then .error "OwnableUnauthorizedAccount"
  else
    match erc20Transfer contractAddr s.owner (s.balances contractAddr) s.balances with
    | .error e => .error e
    | .ok bal => .ok { s with balances := bal }

/-- The mutating external calls of the contract, as one transaction type. -/
inductive Tx where
  | register (sender ts : Nat)
  | unregister (sender : Nat)
  | stake (sender amount : Nat)
  | create (sender ts : Nat) (url : String) (interval timeout rewardPerCheck : Nat)
  | submit (sender ts requestId : Nat) (isUp : Bool) (responseTime : Nat)
  | deactivate (sender requestId : Nat)
  | setMinStake (sender amount : Nat)
  | setThreshold (sender threshold : Nat)
  | doPause (sender : Nat)
  | doUnpause (sender : Nat)
  | withdraw (sender : Nat)

/-- Dispatch a transaction to the corresponding contract function. -/
def applyTx (s : ChainState) (tx : Tx) : Except String ChainState :=
  match tx with
  | .register sender ts => registerNode sender ts s
  | .unregister sender => unregisterNode sender s
  | .stake sender amount => addStake sender amount s
  | .create sender ts url interval timeout rewardPerCheck =>
      match createMonitoringRequest sender ts url interval timeout rewardPerCheck s with
      | .error e => .error e
      | .ok (s2, _) => .ok s2
  | .submit sender ts requestId isUp responseTime =>
      submitMonitoringResult sender ts requestId isUp responseTime s
  | .deactivate sender requestId => deactivateMonitoringRequest sender requestId s
  | .setMinStake sender amount => setMinimumStake sender amount s
  | .setThreshold sender threshold => setConsensusThreshold sender threshold s
  | .doPause sender => pause sender s
  | .doUnpause sender => unpause sender s
  | .withdraw sender => emergencyWithdraw sender s

/-- Ledger semantics of a transaction: a reverted call leaves the state
exactly as it was. -/
def execTx (s : ChainState) (tx : Tx) : ChainState :=
  match applyTx s tx with
  | .ok s2 => s2
  | .error _ => s

/-- Run a sequence of transactions under revert semantics. -/
def applyTrace (s : ChainState) (txs : List Tx) : ChainState :=
  txs.foldl execTx s

/-- Overwrite only the pause flag of a state. -/
def setPaused (b : Bool) (s : ChainState) : ChainState :=
  { s with paused := b }

/-- The results mapping produced by a sequence of result submissions for
one request, each performing the store of `submitMonitoringResult`.  A
submission is a tuple `(sender, isUp, responseTime, timestamp)`. -/
def recordResults (requestId : Nat) (subs : List (Addr × Bool × Nat × Nat))
    (m : Nat → Addr → MonitoringResult) : Nat → Addr → MonitoringResult :=
  subs.foldl (fun acc sub => recordResult requestId sub.1 sub.2.1 sub.2.2.1 sub.2.2.2 acc) m

/-- A concrete deployment state: the constructor defaults of the
contract (`minimumStake = 1000e18`, `consensusThreshold = 66`,
`maxResponseTime = 30000`, `_nextRequestId = 1`, empty registries), the
owner at address 100, reward-token balances funding the contract custody
and the accounts 1–4, and the allowances granted to the contract by the
node accounts 1–3, as in the repository test fixture (which approves the
minimum stake before each registration). -/
def initState : ChainState where
  balances := fun a =>
    if a = contractAddr then 1000000 * 10 ^ 18
    else if a = 0 then 0
    else if a ≤ 4 then 2000 * 10 ^ 18 else 0
  allowances := fun src spender =>
    if 1 ≤ src ∧ src ≤ 3 ∧ spender = contractAddr then 1000 * 10 ^ 18 else 0
  minimumStake := 1000 * 10 ^ 18
  consensusThreshold := 66
  maxResponseTime := 30000
  nextRequestId := 1
  monitoringNodes := fun _ => MonitoringNode.empty
  monitoringRequests := fun _ => MonitoringRequest.empty
  monitoringResults := fun _ _ => MonitoringResult.empty
  requestNodes := fun _ => []
  nodeRequests := fun _ => []
  activeNodes := []
  activeRequests := []
  owner := 100
  paused := false
  events := []

/-- The consensus scenario of the spec and of the repository test
"Should reach consensus and distribute rewards": three nodes register, a
request is created, and the committee submits `up(200)`, `up(180)`,
`down(5000)`. -/
def scenarioTrace : List Tx :=
  [ .register 1 10, .register 2 11, .register 3 12,
    .create 4 20 "https://example.com" 300 5000 (10 ^ 18),
    .submit 1 30 1 true 200,
    .submit 2 31 1 true 180,
    .submit 3 32 1 false 5000 ]

/-- The state after the three registrations of the scenario. -/
def postRegState : ChainState :=
  applyTrace initState (scenarioTrace.take 3)

/-- The state after registrations, request creation and the first
submission of the scenario. -/
def oneSubmitState : ChainState :=
  applyTrace initState (scenarioTrace.take 5)

/-- The state after the whole consensus scenario has run. -/
def scenarioFinal : ChainState :=
  applyTrace initState scenarioTrace

/-- The state produced by settling request 1 of the finished scenario a
second time with consensus `up` (used to exercise the settlement rules on
a concrete state). -/
def resettledState : ChainState :=
  match distributeRewards 1 true scenarioFinal with
  | .ok s2 => s2
  | .error _ => scenarioFinal

/-- The pair returned by creating a request on `postRegState`. -/
def createdPair : ChainState × Nat :=
  match createMonitoringRequest 4 20 "https://example.com" 300 5000 (10 ^ 18) postRegState with
  | .ok p => p
  | .error _ => (postRegState, 0)

end UptimeMonitor

namespace ObserverRuntime

/-!
Embedding of the observer node probe
(`packages/monitoring-node/src/services/MonitoringNode.js`).  The
network interaction of one `axios.get` call is abstracted as a
`ProbeOutcome`: either an HTTP response arrived (with its status code
and the elapsed wall-clock milliseconds) or the call failed with a
timeout/connection error after some elapsed time.  With
`validateStatus: (status) => status < 500`, axios resolves for status
codes below 500 and throws otherwise, and `error.response` carries the
status of a 5xx reply while a network error has none (statusCode 0).
-/

/-- Outcome of the single `axios.get` of `httpCheck`. -/
inductive ProbeOutcome where
  | response (status elapsed : Nat)
  | networkError (elapsed : Nat)
deriving DecidableEq

/-- The elapsed wall-clock time `Date.now() - startTime` measured by
`httpCheck` around the probe. -/
def ProbeOutcome.elapsed : ProbeOutcome → Nat
  | .response _ e => e
  | .networkError e => e

/-- The fields of the object `httpCheck` resolves with. -/
structure HttpCheckResult where
  isUp : Bool
  responseTime : Nat
  statusCode : Nat
deriving DecidableEq

/-- `httpCheck(url, timeout)` of `MonitoringNode.js`: a response with
status below 500 resolves in the try branch with `isUp: true`; a 5xx
response or a network error lands in the catch branch with
`isUp: false`.  Both branches report the measured elapsed time as
`responseTime`. -/
def httpCheck : ProbeOutcome → HttpCheckResult
  | .response status elapsed =>
      if status < 500 then ⟨true, elapsed, status⟩
      else ⟨false, elapsed, status⟩
  | .networkError elapsed => ⟨false, elapsed, 0⟩

end ObserverRuntime

namespace UptimeMonitor

theorem updFn_same {κ α : Type} [DecidableEq κ] (m : κ → α) (k : κ) (v : α) :
    updFn m k v k = v := by
  simp [updFn]

theorem updFn_ne {κ α : Type} [DecidableEq κ] (m : κ → α) (k : κ) (v : α)
    {x : κ} (h : x ≠ k) : updFn m k v x = m x := by
  simp [updFn, h]

theorem contractAddr_ne_zero : contractAddr ≠ 0 := by decide

theorem erc20Transfer_insufficient {src dst : Addr} {value : Nat} {bal : Addr → Nat}
    (h : bal src < value) :
    ∃ e, erc20Transfer src dst value bal = .error e := by
  unfold erc20Transfer
  split
  · exact ⟨_, rfl⟩
  · split
    · exact ⟨_, rfl⟩
    · exact ⟨_, rfl⟩

theorem erc20Transfer_ok_elim {src dst : Addr} {value : Nat} {bal bal2 : Addr → Nat}
    (h : erc20Transfer src dst value bal = .ok bal2) :
    src ≠ 0 ∧ dst ≠ 0 ∧ value ≤ bal src ∧
      bal2 = updFn (updFn bal src (bal src - value)) dst
        (updFn bal src (bal src - value) dst + value) := by
  unfold erc20Transfer at h
  split at h
  · exact absurd h (by simp)
  · next h1 =>
    split at h
    · exact absurd h (by simp)
    · next h2 =>
      split at h
      · exact absurd h (by simp)
      · next h3 =>
        simp only [Except.ok.injEq] at h
        exact ⟨h1, h2, Nat.le_of_not_lt h3, h.symm⟩

theorem erc20Transfer_ok_of {src dst : Addr} {value : Nat} {bal : Addr → Nat}
    (hs : src ≠ 0) (hd : dst ≠ 0) (h : value ≤ bal src) :
    erc20Transfer src dst value bal =
      .ok (updFn (updFn bal src (bal src - value)) dst
        (updFn bal src (bal src - value) dst + value)) := by
  unfold erc20Transfer
  rw [if_neg hs, if_neg hd, if_neg (Nat.not_lt.mpr h)]

theorem erc20Transfer_ok_dst {src dst : Addr} {value : Nat} {bal bal2 : Addr → Nat}
    (h : erc20Transfer src dst value bal = .ok bal2) (hne : dst ≠ src) :
    bal2 dst = bal dst + value := by
  obtain ⟨-, -, -, rfl⟩ := erc20Transfer_ok_elim h
  rw [updFn_same, updFn_ne _ _ _ hne]

theorem erc20Transfer_ok_src {src dst : Addr} {value : Nat} {bal bal2 : Addr → Nat}
    (h : erc20Transfer src dst value bal = .ok bal2) (hne : src ≠ dst) :
    bal2 src = bal src - value := by
  obtain ⟨-, -, -, rfl⟩ := erc20Transfer_ok_elim h
  rw [updFn_ne _ _ _ hne, updFn_same]

theorem erc20Transfer_ok_other {src dst x : Addr} {value : Nat} {bal bal2 : Addr → Nat}
    (h : erc20Transfer src dst value bal = .ok bal2)
    (hs : x ≠ src) (hd : x ≠ dst) : bal2 x = bal x := by
  obtain ⟨-, -, -, rfl⟩ := erc20Transfer_ok_elim h
  rw [updFn_ne _ _ _ hd, updFn_ne _ _ _ hs]

theorem spendAllowance_ok_of {src spender : Addr} {value : Nat}
    {allow : Addr → Addr → Nat} (h : value ≤ allow src spender) :
    ∃ allow2, spendAllowance src spender value allow = .ok allow2 := by
  unfold spendAllowance
  split
  · exact ⟨_, rfl⟩
  · rw [if_neg (Nat.not_lt.mpr h)]
    exact ⟨_, rfl⟩

theorem spendAllowance_error_of {src spender : Addr} {value : Nat}
    {allow : Addr → Addr → Nat}
    (h1 : allow src spender ≠ maxUint256) (h2 : allow src spender < value) :
    spendAllowance src spender value allow = .error "ERC20InsufficientAllowance" := by
  unfold spendAllowance
  rw [if_neg h1, if_pos h2]

theorem erc20TransferFrom_insufficient_balance {spender src dst : Addr} {value : Nat}
    {bal : Addr → Nat} {allow : Addr → Addr → Nat} (h : bal src < value) :
    ∃ e, erc20TransferFrom spender src dst value bal allow = .error e := by
  unfold erc20TransferFrom
  cases hsp : spendAllowance src spender value allow with
  | error e => exact ⟨e, rfl⟩
  | ok allow2 =>
    obtain ⟨e, he⟩ := @erc20Transfer_insufficient src dst value bal h
    rw [he]
    exact ⟨e, rfl⟩

theorem erc20TransferFrom_insufficient_allowance {spender src dst : Addr} {value : Nat}
    {bal : Addr → Nat} {allow : Addr → Addr → Nat}
    (h1 : allow src spender ≠ maxUint256) (h2 : allow src spender < value) :
    erc20TransferFrom spender src dst value bal allow =
      .error "ERC20InsufficientAllowance" := by
  unfold erc20TransferFrom
  rw [spendAllowance_error_of h1 h2]

theorem erc20TransferFrom_ok_elim {spender src dst : Addr} {value : Nat}
    {bal : Addr → Nat} {allow : Addr → Addr → Nat}
    {ba : (Addr → Nat) × (Addr → Addr → Nat)}
    (h : erc20TransferFrom spender src dst value bal allow = .ok ba) :
    src ≠ 0 ∧ dst ≠ 0 ∧ value ≤ bal src ∧
      ba.1 = updFn (updFn bal src (bal src - value)) dst
        (updFn bal src (bal src - value) dst + value) := by
  unfold erc20TransferFrom at h
  split at h
  · exact absurd h (by simp)
  · split at h
    · exact absurd h (by simp)
    · next bal2 htr =>
      simp only [Except.ok.injEq] at h
      obtain ⟨h1, h2, h3, h4⟩ := erc20Transfer_ok_elim htr
      exact ⟨h1, h2, h3, by rw [← h]; exact h4⟩

theorem erc20TransferFrom_ok_of {spender src dst : Addr} {value : Nat}
    {bal : Addr → Nat} {allow : Addr → Addr → Nat}
    (hs : src ≠ 0) (hd : dst ≠ 0) (hbal : value ≤ bal src)
    (hall : value ≤ allow src spender) :
    ∃ allow2, erc20TransferFrom spender src dst value bal allow =
      .ok (updFn (updFn bal src (bal src - value)) dst
        (updFn bal src (bal src - value) dst + value), allow2) := by
  obtain ⟨allow2, hsp⟩ := spendAllowance_ok_of hall
  refine ⟨allow2, ?_⟩
  unfold erc20TransferFrom
  rw [hsp, erc20Transfer_ok_of hs hd hbal]

theorem settleNode_preserves {r : Nat} {c : Bool} {w : Nat} {a : Addr} {s s2 : ChainState}
    (h : settleNode r c w a s = .ok s2) :
    s2.monitoringResults = s.monitoringResults ∧
    s2.monitoringRequests = s.monitoringRequests ∧
    s2.requestNodes = s.requestNodes ∧
    s2.nodeRequests = s.nodeRequests ∧
    s2.activeNodes = s.activeNodes ∧
    s2.activeRequests = s.activeRequests ∧
    s2.nextRequestId = s.nextRequestId ∧
    s2.minimumStake = s.minimumStake ∧
    s2.consensusThreshold = s.consensusThreshold ∧
    s2.maxResponseTime = s.maxResponseTime ∧
    s2.owner = s.owner ∧
    s2.paused = s.paused := by
  simp only [settleNode] at h
  split at h
  · split at h
    · split at h
      · exact absurd h (by simp)
      · simp only [Except.ok.injEq] at h
        subst h
        exact ⟨rfl, rfl, rfl, rfl, rfl, rfl, rfl, rfl, rfl, rfl, rfl, rfl⟩
    · simp only [Except.ok.injEq] at h
      subst h
      exact ⟨rfl, rfl, rfl, rfl, rfl, rfl, rfl, rfl, rfl, rfl, rfl, rfl⟩
  · simp only [Except.ok.injEq] at h
    subst h
    exact ⟨rfl, rfl, rfl, rfl, rfl, rfl, rfl, rfl, rfl, rfl, rfl, rfl⟩

theorem settleNode_frame {r : Nat} {c : Bool} {w : Nat} {a : Addr} {s s2 : ChainState}
    (h : settleNode r c w a s = .ok s2) {x : Addr}
    (hxa : x ≠ a) (hxc : x ≠ contractAddr) :
    s2.monitoringNodes x = s.monitoringNodes x ∧ s2.balances x = s.balances x := by
  simp only [settleNode] at h
  split at h
  · split at h
    · split at h
      · exact absurd h (by simp)
      · next bal htr =>
        simp only [Except.ok.injEq] at h
        subst h
        exact ⟨updFn_ne _ _ _ hxa, erc20Transfer_ok_other htr hxc hxa⟩
    · simp only [Except.ok.injEq] at h
      subst h
      refine ⟨?_, rfl⟩
      split
      · exact updFn_ne _ _ _ hxa
      · rfl
  · simp only [Except.ok.injEq] at h
    subst h
    exact ⟨rfl, rfl⟩

theorem settleNode_effect_agree {r : Nat} {c : Bool} {w : Nat} {a : Addr} {s s2 : ChainState}
    (h : settleNode r c w a s = .ok s2)
    (hsub : (s.monitoringResults r a).isSubmitted = true)
    (hup : (s.monitoringResults r a).isUp = c)
    (hac : a ≠ contractAddr) :
    s2.monitoringNodes a = { s.monitoringNodes a with
      successfulChecks := (s.monitoringNodes a).successfulChecks + 1
      reputation := (s.monitoringNodes a).reputation + 1 } ∧
    s2.balances a = s.balances a + w ∧
    w ≤ s.balances contractAddr := by
  simp only [settleNode, hsub, hup, if_true] at h
  split at h
  · exact absurd h (by simp)
  · next bal htr =>
    simp only [Except.ok.injEq] at h
    subst h
    have hle := (erc20Transfer_ok_elim htr).2.2.1
    exact ⟨updFn_same _ _ _, erc20Transfer_ok_dst htr hac, hle⟩

theorem settleNode_effect_disagree {r : Nat} {c : Bool} {w : Nat} {a : Addr} {s s2 : ChainState}
    (h : settleNode r c w a s = .ok s2)
    (hsub : (s.monitoringResults r a).isSubmitted = true)
    (hup : (s.monitoringResults r a).isUp ≠ c) :
    s2.monitoringNodes a =
      (if 1 < (s.monitoringNodes a).reputation then
        { s.monitoringNodes a with reputation := (s.monitoringNodes a).reputation - 1 }
      else s.monitoringNodes a) ∧
    s2.balances = s.balances := by
  simp only [settleNode, hsub, if_true] at h
  rw [if_neg hup] at h
  simp only [Except.ok.injEq] at h
  subst h
  refine ⟨?_, rfl⟩
  split
  · exact updFn_same _ _ _
  · rfl

theorem settleNode_skip {r : Nat} {c : Bool} {w : Nat} {a : Addr} {s : ChainState}
    (hsub : (s.monitoringResults r a).isSubmitted = false) :
    settleNode r c w a s = .ok s := by
  simp [settleNode, hsub]

theorem settleNode_events {r : Nat} {c : Bool} {w : Nat} {a : Addr} {s s2 : ChainState}
    (h : settleNode r c w a s = .ok s2) :
    ∃ t, s2.events = s.events ++ t := by
  simp only [settleNode] at h
  split at h
  · split at h
    · split at h
      · exact absurd h (by simp)
      · simp only [Except.ok.injEq] at h
        subst h
        exact ⟨_, rfl⟩
    · simp only [Except.ok.injEq] at h
      subst h
      exact ⟨_, rfl⟩
  · simp only [Except.ok.injEq] at h
    subst h
    exact ⟨[], (List.append_nil _).symm⟩

theorem settleNode_fail {r : Nat} {c : Bool} {w : Nat} {a : Addr} {s : ChainState}
    (hsub : (s.monitoringResults r a).isSubmitted = true)
    (hup : (s.monitoringResults r a).isUp = c)
    (hbal : s.balances contractAddr < w) :
    ∃ e, settleNode r c w a s = .error e := by
  simp only [settleNode, hsub, hup, if_true]
  obtain ⟨e, he⟩ := @erc20Transfer_insufficient contractAddr a w s.balances hbal
  rw [he]
  exact ⟨e, rfl⟩

theorem distLoop_results {r : Nat} {c : Bool} {w : Nat} (nodes : List Addr) :
    ∀ {s s2 : ChainState}, distributeRewardsLoop r c w nodes s = .ok s2 →
      s2.monitoringResults = s.monitoringResults := by
  induction nodes with
  | nil =>
    intro s s2 h
    simp only [distributeRewardsLoop, Except.ok.injEq] at h
    subst h
    rfl
  | cons a rest ih =>
    intro s s2 h
    simp only [distributeRewardsLoop] at h
    split at h
    · exact absurd h (by simp)
    · next s1 hs1 => exact (ih h).trans (settleNode_preserves hs1).1

theorem distLoop_events {r : Nat} {c : Bool} {w : Nat} (nodes : List Addr) :
    ∀ {s s2 : ChainState}, distributeRewardsLoop r c w nodes s = .ok s2 →
      ∃ t, s2.events = s.events ++ t := by
  induction nodes with
  | nil =>
    intro s s2 h
    simp only [distributeRewardsLoop, Except.ok.injEq] at h
    subst h
    exact ⟨[], (List.append_nil _).symm⟩
  | cons a rest ih =>
    intro s s2 h
    simp only [distributeRewardsLoop] at h
    split at h
    · exact absurd h (by simp)
    · next s1 hs1 =>
      obtain ⟨t1, ht1⟩ := settleNode_events hs1
      obtain ⟨t2, ht2⟩ := ih h
      exact ⟨t1 ++ t2, by rw [ht2, ht1, List.append_assoc]⟩

theorem distLoop_frame {r : Nat} {c : Bool} {w : Nat} (nodes : List Addr) :
    ∀ {s s2 : ChainState}, distributeRewardsLoop r c w nodes s = .ok s2 →
      ∀ x, x ∉ nodes → x ≠ contractAddr →
        s2.monitoringNodes x = s.monitoringNodes x ∧ s2.balances x = s.balances x := by
  induction nodes with
  | nil =>
    intro s s2 h x _ _
    simp only [distributeRewardsLoop, Except.ok.injEq] at h
    subst h
    exact ⟨rfl, rfl⟩
  | cons a rest ih =>
    intro s s2 h x hx hxc
    simp only [distributeRewardsLoop] at h
    split at h
    · exact absurd h (by simp)
    · next s1 hs1 =>
      have hxa : x ≠ a := fun he => hx (he ▸ List.mem_cons_self a rest)
      have hxr : x ∉ rest := fun he => hx (List.mem_cons_of_mem a he)
      obtain ⟨n1, b1⟩ := settleNode_frame hs1 hxa hxc
      obtain ⟨n2, b2⟩ := ih h x hxr hxc
      exact ⟨n2.trans n1, b2.trans b1⟩

theorem distLoop_effect {r : Nat} {c : Bool} {w : Nat} (nodes : List Addr) :
    ∀ {s s2 : ChainState}, distributeRewardsLoop r c w nodes s = .ok s2 →
      nodes.Nodup → contractAddr ∉ nodes →
      ∀ a ∈ nodes, (s.monitoringResults r a).isSubmitted = true →
        (((s.monitoringResults r a).isUp = c →
           s2.monitoringNodes a = { s.monitoringNodes a with
             successfulChecks := (s.monitoringNodes a).successfulChecks + 1
             reputation := (s.monitoringNodes a).reputation + 1 } ∧
           s2.balances a = s.balances a + w) ∧
         ((s.monitoringResults r a).isUp ≠ c →
           s2.monitoringNodes a =
             (if 1 < (s.monitoringNodes a).reputation then
               { s.monitoringNodes a with
                  reputation := (s.monitoringNodes a).reputation - 1 }
             else s.monitoringNodes a) ∧
           s2.balances a = s.balances a)) := by
  induction nodes with
  | nil =>
    intro s s2 _ _ _ a ha
    exact absurd ha (List.not_mem_nil a)
  | cons a0 rest ih =>
    intro s s2 h hnd hc a ha hsub
    simp only [distributeRewardsLoop] at h
    split at h
    · exact absurd h (by simp)
    · next s1 hs1 =>
      have ha0rest : a0 ∉ rest := (List.nodup_cons.mp hnd).1
      have hndr : rest.Nodup := (List.nodup_cons.mp hnd).2
      have hca0 : contractAddr ≠ a0 := fun he => hc (he ▸ List.mem_cons_self a0 rest)
      have hcrest : contractAddr ∉ rest := fun he => hc (List.mem_cons_of_mem a0 he)
      rcases List.mem_cons.mp ha with rfl | harest
      · -- the member under consideration is the head: settled now, framed afterwards
        have hfr := distLoop_frame rest h a ha0rest (Ne.symm hca0)
        constructor
        · intro hup
          obtain ⟨hn, hb, -⟩ := settleNode_effect_agree hs1 hsub hup (Ne.symm hca0)
          exact ⟨hfr.1.trans hn, hfr.2.trans hb⟩
        · intro hup
          obtain ⟨hn, hb⟩ := settleNode_effect_disagree hs1 hsub hup
          exact ⟨hfr.1.trans hn, hfr.2.trans (congrFun hb a)⟩
      · -- the member is further down: framed now, settled by the tail loop
        have haa0 : a ≠ a0 := fun he => ha0rest (he ▸ harest)
        have hac : a ≠ contractAddr := fun he => hcrest (he ▸ harest)
        obtain ⟨n1, b1⟩ := settleNode_frame hs1 haa0 hac
        have hres : s1.monitoringResults = s.monitoringResults :=
          (settleNode_preserves hs1).1
        have := ih h hndr hcrest a harest (by rw [hres]; exact hsub)
        rw [hres, n1, b1] at this
        exact this

theorem checkConsensus_not_full {s : ChainState} {r ts : Nat}
    (h : countSubmitted (s.monitoringResults r) (s.requestNodes r) ≠ (s.requestNodes r).length) :
    checkConsensus r ts s = .ok s := by
  simp only [checkConsensus]
  rw [if_neg h]

theorem checkConsensus_results {s s2 : ChainState} {r ts : Nat}
    (h : checkConsensus r ts s = .ok s2) :
    s2.monitoringResults = s.monitoringResults := by
  simp only [checkConsensus, distributeRewards] at h
  split at h
  · split at h
    · exact absurd h (by simp)
    · next s3 hs3 =>
      simp only [Except.ok.injEq] at h
      subst h
      have hres := distLoop_results _ hs3
      exact hres
  · simp only [Except.ok.injEq] at h
    subst h
    rfl

theorem checkConsensus_full_events {s s2 : ChainState} {r ts : Nat}
    (hfull : countSubmitted (s.monitoringResults r) (s.requestNodes r) = (s.requestNodes r).length)
    (h : checkConsensus r ts s = .ok s2) :
    ∃ t, s2.events = s.events ++
      Event.ConsensusReached r
        (consensusOutcome s.consensusThreshold (s.monitoringResults r) (s.requestNodes r)).1
        (consensusOutcome s.consensusThreshold (s.monitoringResults r) (s.requestNodes r)).2 :: t := by
  simp only [checkConsensus, distributeRewards] at h
  rw [if_pos hfull] at h
  split at h
  · exact absurd h (by simp)
  · next s3 hs3 =>
    simp only [Except.ok.injEq] at h
    subst h
    obtain ⟨t, ht⟩ := distLoop_events _ hs3
    exact ⟨t, by simpa [List.append_assoc] using ht⟩

theorem registerNode_results {sender : Addr} {ts : Nat} {s s2 : ChainState}
    (h : registerNode sender ts s = .ok s2) :
    s2.monitoringResults = s.monitoringResults := by
  simp only [registerNode] at h
  split at h
  · exact absurd h (by simp)
  · split at h
    · exact absurd h (by simp)
    · split at h
      · exact absurd h (by simp)
      · simp only [Except.ok.injEq] at h
        subst h
        rfl

theorem unregisterNode_results {sender : Addr} {s s2 : ChainState}
    (h : unregisterNode sender s = .ok s2) :
    s2.monitoringResults = s.monitoringResults := by
  simp only [unregisterNode] at h
  split at h
  · exact absurd h (by simp)
  · split at h
    · exact absurd h (by simp)
    · split at h
      · exact absurd h (by simp)
      · simp only [Except.ok.injEq] at h
        subst h
        rfl

theorem addStake_results {sender : Addr} {amount : Nat} {s s2 : ChainState}
    (h : addStake sender amount s = .ok s2) :
    s2.monitoringResults = s.monitoringResults := by
  simp only [addStake] at h
  split at h
  · exact absurd h (by simp)
  · split at h
    · exact absurd h (by simp)
    · split at h
      · exact absurd h (by simp)
      · simp only [Except.ok.injEq] at h
        subst h
        rfl

theorem ternary_three_eq_min (n : Nat) : (if 3 ≤ n then 3 else n) = min 3 n :=
  Nat.min_def.symm

theorem assignNodesToRequest_elim {rid : Nat} {s s2 : ChainState}
    (h : assignNodesToRequest rid s = .ok s2) :
    s.activeNodes.length ≠ 0 ∧
    s2 = { s with
      requestNodes := updFn s.requestNodes rid
        (s.requestNodes rid ++ s.activeNodes.take (min 3 s.activeNodes.length))
      nodeRequests := (s.activeNodes.take (min 3 s.activeNodes.length)).foldl
        (fun m a => updFn m a (m a ++ [rid])) s.nodeRequests } := by
  simp only [assignNodesToRequest] at h
  rw [ternary_three_eq_min] at h
  split at h
  · exact absurd h (by simp)
  · next hne =>
    simp only [Except.ok.injEq] at h
    refine ⟨fun hlen => hne (by simp [hlen]), ?_⟩
    exact h.symm

theorem assignNodesToRequest_empty {rid : Nat} {s : ChainState}
    (h : s.activeNodes = []) :
    assignNodesToRequest rid s = .error "No active nodes available" := by
  simp [assignNodesToRequest, h]

theorem createMonitoringRequest_results {sender ts : Nat} {url : String}
    {interval timeout rewardPerCheck : Nat} {s s2 : ChainState} {rid : Nat}
    (h : createMonitoringRequest sender ts url interval timeout rewardPerCheck s = .ok (s2, rid)) :
    s2.monitoringResults = s.monitoringResults := by
  simp only [createMonitoringRequest] at h
  split at h
  · exact absurd h (by simp)
  · split at h
    · exact absurd h (by simp)
    · split at h
      · exact absurd h (by simp)
      · split at h
        · exact absurd h (by simp)
        · split at h
          · exact absurd h (by simp)
          · split at h
            · exact absurd h (by simp)
            · next s3 heq =>
              obtain ⟨-, rfl⟩ := assignNodesToRequest_elim heq
              simp only [Except.ok.injEq, Prod.mk.injEq] at h
              obtain ⟨h1, -⟩ := h
              subst h1
              rfl

theorem deactivateMonitoringRequest_results {sender requestId : Nat} {s s2 : ChainState}
    (h : deactivateMonitoringRequest sender requestId s = .ok s2) :
    s2.monitoringResults = s.monitoringResults := by
  simp only [deactivateMonitoringRequest] at h
  split at h
  · exact absurd h (by simp)
  · split at h
    · exact absurd h (by simp)
    · split at h
      · exact absurd h (by simp)
      · simp only [Except.ok.injEq] at h
        subst h
        rfl

theorem setMinimumStake_results {sender amount : Nat} {s s2 : ChainState}
    (h : setMinimumStake sender amount s = .ok s2) :
    s2.monitoringResults = s.monitoringResults := by
  simp only [setMinimumStake] at h
  split at h
  · exact absurd h (by simp)
  · simp only [Except.ok.injEq] at h
    subst h
    rfl

theorem setConsensusThreshold_results {sender threshold : Nat} {s s2 : ChainState}
    (h : setConsensusThreshold sender threshold s = .ok s2) :
    s2.monitoringResults = s.monitoringResults := by
  simp only [setConsensusThreshold] at h
  split at h
  · exact absurd h (by simp)
  · split at h
    · exact absurd h (by simp)
    · simp only [Except.ok.injEq] at h
      subst h
      rfl

theorem pause_results {sender : Nat} {s s2 : ChainState}
    (h : pause sender s = .ok s2) :
    s2.monitoringResults = s.monitoringResults := by
  simp only [pause] at h
  split at h
  · exact absurd h (by simp)
  · split at h
    · exact absurd h (by simp)
    · simp only [Except.ok.injEq] at h
      subst h
      rfl

theorem unpause_results {sender : Nat} {s s2 : ChainState}
    (h : unpause sender s = .ok s2) :
    s2.monitoringResults = s.monitoringResults := by
  simp only [unpause] at h
  split at h
  · exact absurd h (by simp)
  · split at h
    · exact absurd h (by simp)
    · simp only [Except.ok.injEq] at h
      subst h
      rfl

theorem emergencyWithdraw_results {sender : Nat} {s s2 : ChainState}
    (h : emergencyWithdraw sender s = .ok s2) :
    s2.monitoringResults = s.monitoringResults := by
  simp only [emergencyWithdraw] at h
  split at h
  · exact absurd h (by simp)
  · split at h
    · exact absurd h (by simp)
    · simp only [Except.ok.injEq] at h
      subst h
      rfl

theorem submitMonitoringResult_results {sender : Addr} {ts requestId : Nat} {isUp : Bool}
    {responseTime : Nat} {s s2 : ChainState}
    (h : submitMonitoringResult sender ts requestId isUp responseTime s = .ok s2) :
    s2.monitoringResults = recordResult requestId sender isUp responseTime ts s.monitoringResults := by
  simp only [submitMonitoringResult] at h
  split at h
  · exact absurd h (by simp)
  · split at h
    · exact absurd h (by simp)
    · split at h
      · exact absurd h (by simp)
      · split at h
        · exact absurd h (by simp)
        · split at h
          · exact absurd h (by simp)
          · have hres := checkConsensus_results h
            exact hres

theorem recordResult_at_same (requestId : Nat) (sender : Addr) (isUp : Bool)
    (responseTime ts : Nat) (m : Nat → Addr → MonitoringResult) :
    recordResult requestId sender isUp responseTime ts m requestId sender =
      ⟨sender, isUp, responseTime, ts, true⟩ := by
  simp only [recordResult]
  rw [updFn_same, updFn_same]

theorem recordResult_isSubmitted_mono {r a : Nat} {m : Nat → Addr → MonitoringResult}
    (requestId : Nat) (sender : Addr) (isUp : Bool) (responseTime ts : Nat)
    (h : (m r a).isSubmitted = true) :
    ((recordResult requestId sender isUp responseTime ts m) r a).isSubmitted = true := by
  by_cases hr : r = requestId
  · subst hr
    by_cases ha : a = sender
    · subst ha
      rw [recordResult_at_same]
    · simp only [recordResult]
      rw [updFn_same, updFn_ne _ _ _ ha]
      exact h
  · simp only [recordResult]
    rw [updFn_ne _ _ _ hr]
    exact h

theorem execTx_isSubmitted_mono {r : Nat} {a : Addr} (tx : Tx) (s : ChainState)
    (h : (s.monitoringResults r a).isSubmitted = true) :
    ((execTx s tx).monitoringResults r a).isSubmitted = true := by
  unfold execTx
  cases htx : applyTx s tx with
  | error e => exact h
  | ok s2 =>
    cases tx with
    | register sender ts =>
      simp only [applyTx] at htx
      rw [registerNode_results htx]
      exact h
    | unregister sender =>
      simp only [applyTx] at htx
      rw [unregisterNode_results htx]
      exact h
    | stake sender amount =>
      simp only [applyTx] at htx
      rw [addStake_results htx]
      exact h
    | create sender ts url interval timeout rewardPerCheck =>
      simp only [applyTx] at htx
      split at htx
      · exact absurd htx (by simp)
      · next s3 rid heq =>
        simp only [Except.ok.injEq] at htx
        subst htx
        rw [createMonitoringRequest_results heq]
        exact h
    | submit sender ts requestId isUp responseTime =>
      simp only [applyTx] at htx
      rw [submitMonitoringResult_results htx]
      exact recordResult_isSubmitted_mono _ _ _ _ _ h
    | deactivate sender requestId =>
      simp only [applyTx] at htx
      rw [deactivateMonitoringRequest_results htx]
      exact h
    | setMinStake sender amount =>
      simp only [applyTx] at htx
      rw [setMinimumStake_results htx]
      exact h
    | setThreshold sender threshold =>
      simp only [applyTx] at htx
      rw [setConsensusThreshold_results htx]
      exact h
    | doPause sender =>
      simp only [applyTx] at htx
      rw [pause_results htx]
      exact h
    | doUnpause sender =>
      simp only [applyTx] at htx
      rw [unpause_results htx]
      exact h
    | withdraw sender =>
      simp only [applyTx] at htx
      rw [emergencyWithdraw_results htx]
      exact h

theorem applyTrace_isSubmitted_mono {r : Nat} {a : Addr} (txs : List Tx) :
    ∀ {s : ChainState}, (s.monitoringResults r a).isSubmitted = true →
      ((applyTrace s txs).monitoringResults r a).isSubmitted = true := by
  induction txs with
  | nil => intro s h; exact h
  | cons tx rest ih =>
    intro s h
    simp only [applyTrace, List.foldl_cons]
    exact ih (execTx_isSubmitted_mono tx s h)

theorem submitMonitoringResult_fails_of_submitted {a : Addr} {ts r : Nat} {u : Bool}
    {rt : Nat} {s : ChainState}
    (h : (s.monitoringResults r a).isSubmitted = true) :
    ∃ e, submitMonitoringResult a ts r u rt s = .error e := by
  unfold submitMonitoringResult
  split
  · exact ⟨_, rfl⟩
  · split
    · exact ⟨_, rfl⟩
    · split
      · exact ⟨_, rfl⟩
      · exact ⟨_, rfl⟩

theorem settleNode_setPaused (r : Nat) (c : Bool) (w : Nat) (a : Addr) (b : Bool)
    (s : ChainState) :
    settleNode r c w a (setPaused b s) = Except.map (setPaused b) (settleNode r c w a s) := by
  by_cases h1 : (s.monitoringResults r a).isSubmitted
  · by_cases h2 : (s.monitoringResults r a).isUp = c
    · simp only [settleNode, setPaused, h1, h2, if_true]
      cases htr : erc20Transfer contractAddr a w s.balances <;>
        simp [htr, Except.map, setPaused]
    · simp [settleNode, setPaused, h1, h2, Except.map]
  · simp [settleNode, setPaused, h1, Except.map]

theorem distLoop_setPaused (r : Nat) (c : Bool) (w : Nat) (nodes : List Addr) :
    ∀ (b : Bool) (s : ChainState),
      distributeRewardsLoop r c w nodes (setPaused b s) =
        Except.map (setPaused b) (distributeRewardsLoop r c w nodes s) := by
  induction nodes with
  | nil => intro b s; simp [distributeRewardsLoop, Except.map]
  | cons a rest ih =>
    intro b s
    simp only [distributeRewardsLoop, settleNode_setPaused]
    cases h : settleNode r c w a s with
    | error e => simp [Except.map]
    | ok s1 => simpa [Except.map] using ih b s1

theorem checkConsensus_setPaused (r ts : Nat) (b : Bool) (s : ChainState) :
    checkConsensus r ts (setPaused b s) = Except.map (setPaused b) (checkConsensus r ts s) := by
  by_cases hfull :
      countSubmitted (s.monitoringResults r) (s.requestNodes r) = (s.requestNodes r).length
  · simp only [checkConsensus, distributeRewards, setPaused, hfull, if_true]
    have hcomm := distLoop_setPaused r
      (consensusOutcome s.consensusThreshold (s.monitoringResults r) (s.requestNodes r)).1
      (s.monitoringRequests r).reward (s.requestNodes r) b
      { s with events := s.events ++
          [.ConsensusReached r
            (consensusOutcome s.consensusThreshold (s.monitoringResults r) (s.requestNodes r)).1
            (consensusOutcome s.consensusThreshold (s.monitoringResults r) (s.requestNodes r)).2] }
    simp only [setPaused] at hcomm
    rw [hcomm]
    cases hdl : distributeRewardsLoop r
        (consensusOutcome s.consensusThreshold (s.monitoringResults r) (s.requestNodes r)).1
        (s.monitoringRequests r).reward (s.requestNodes r)
        { s with events := s.events ++
            [.ConsensusReached r
              (consensusOutcome s.consensusThreshold (s.monitoringResults r) (s.requestNodes r)).1
              (consensusOutcome s.consensusThreshold (s.monitoringResults r) (s.requestNodes r)).2] } with
    | error e => simp [Except.map]
    | ok s2 => simp [Except.map, setPaused]
  · simp [checkConsensus, setPaused, hfull, Except.map]

theorem unregisterNode_setPaused (sender : Addr) (b : Bool) (s : ChainState) :
    unregisterNode sender (setPaused b s) =
      Except.map (setPaused b) (unregisterNode sender s) := by
  by_cases h1 : (s.monitoringNodes sender).isActive
  · by_cases h2 : (s.monitoringNodes sender).stake = 0
    · simp [unregisterNode, setPaused, h1, h2, Except.map]
    · simp only [unregisterNode, setPaused, h1, h2, Bool.not_true, Bool.false_eq_true,
        if_false, if_neg h2]
      cases htr : erc20Transfer contractAddr sender (s.monitoringNodes sender).stake
          s.balances <;>
        simp [htr, Except.map, setPaused]
  · simp [unregisterNode, setPaused, h1, Except.map]

theorem addStake_setPaused (sender : Addr) (amount : Nat) (b : Bool) (s : ChainState) :
    addStake sender amount (setPaused b s) =
      Except.map (setPaused b) (addStake sender amount s) := by
  by_cases h1 : (s.monitoringNodes sender).isActive
  · by_cases h2 : amount = 0
    · simp [addStake, setPaused, h1, h2, Except.map]
    · simp only [addStake, setPaused, h1, h2, Bool.not_true, Bool.false_eq_true,
        if_false, if_neg h2]
      cases htr : erc20TransferFrom contractAddr sender contractAddr amount
          s.balances s.allowances <;>
        simp [htr, Except.map, setPaused]
  · simp [addStake, setPaused, h1, Except.map]

theorem submitMonitoringResult_setPaused (sender : Addr) (ts requestId : Nat)
    (isUp : Bool) (responseTime : Nat) (b : Bool) (s : ChainState) :
    submitMonitoringResult sender ts requestId isUp responseTime (setPaused b s) =
      Except.map (setPaused b) (submitMonitoringResult sender ts requestId isUp responseTime s) := by
  by_cases h1 : (s.monitoringNodes sender).isActive
  · by_cases h2 : 0 < requestId ∧ requestId < s.nextRequestId
    · by_cases h3 : (s.monitoringRequests requestId).isActive
      · by_cases h4 : (s.monitoringResults requestId sender).isSubmitted
        · simp [submitMonitoringResult, setPaused, h1, h2, h3, h4, Except.map]
        · by_cases h5 : isNodeAssignedToRequest s requestId sender
          · have h5m : sender ∈ s.requestNodes requestId := by
              simpa [isNodeAssignedToRequest] using h5
            simp [submitMonitoringResult, setPaused, isNodeAssignedToRequest,
              h1, h2, h3, h4, h5m]
            exact checkConsensus_setPaused requestId ts b
              { s with
                monitoringNodes := updFn s.monitoringNodes sender
                  { nodeAddress := (s.monitoringNodes sender).nodeAddress
                    stake := (s.monitoringNodes sender).stake
                    reputation := (s.monitoringNodes sender).reputation
                    totalChecks := (s.monitoringNodes sender).totalChecks + 1
                    successfulChecks := (s.monitoringNodes sender).successfulChecks
                    isActive := true
                    registrationTime := (s.monitoringNodes sender).registrationTime }
                monitoringResults :=
                  recordResult requestId sender isUp responseTime ts s.monitoringResults
                events := s.events ++
                  [.MonitoringResultSubmitted requestId sender isUp responseTime] }
          · have h5m : sender ∉ s.requestNodes requestId := by
              simpa [isNodeAssignedToRequest] using h5
            simp [submitMonitoringResult, setPaused, isNodeAssignedToRequest,
              h1, h2, h3, h4, h5m, Except.map]
      · simp [submitMonitoringResult, setPaused, h1, h2, h3, Except.map]
    · simp [submitMonitoringResult, setPaused, h1, h2, Except.map]
  · simp [submitMonitoringResult, setPaused, h1, Except.map]

theorem updFn_override {κ α : Type} [DecidableEq κ] (m : κ → α) (k : κ) (v1 v2 : α) :
    updFn (updFn m k v1) k v2 = updFn m k v2 := by
  funext x
  simp only [updFn]
  split <;> rfl

theorem updFn_comm {κ α : Type} [DecidableEq κ] (m : κ → α) {k1 k2 : κ} (h : k1 ≠ k2)
    (v1 v2 : α) :
    updFn (updFn m k1 v1) k2 v2 = updFn (updFn m k2 v2) k1 v1 := by
  funext x
  simp only [updFn]
  by_cases h2 : x = k2
  · subst h2
    have hk : ¬(x = k1) := fun he => h he.symm
    simp [hk]
  · by_cases h1 : x = k1
    · subst h1
      simp [h2]
    · simp [h1, h2]

theorem recordResult_comm {r : Nat} {a1 a2 : Addr} (h : a1 ≠ a2) (u1 u2 : Bool)
    (rt1 rt2 ts1 ts2 : Nat) (m : Nat → Addr → MonitoringResult) :
    recordResult r a2 u2 rt2 ts2 (recordResult r a1 u1 rt1 ts1 m) =
      recordResult r a1 u1 rt1 ts1 (recordResult r a2 u2 rt2 ts2 m) := by
  simp only [recordResult, updFn_same, updFn_override]
  rw [updFn_comm _ h]

theorem recordResults_perm {r : Nat} {subs1 subs2 : List (Addr × Bool × Nat × Nat)}
    (hp : subs1.Perm subs2) :
    (subs1.map Prod.fst).Nodup →
    ∀ m, recordResults r subs1 m = recordResults r subs2 m := by
  induction hp with
  | nil => intro _ m; rfl
  | cons x hp ih =>
    intro hd m
    simp only [List.map_cons, List.nodup_cons] at hd
    simp only [recordResults, List.foldl_cons]
    exact ih hd.2 _
  | swap x y l =>
    intro hd m
    simp only [List.map_cons, List.nodup_cons, List.mem_cons] at hd
    have hxy : y.1 ≠ x.1 := fun he => hd.1 (Or.inl he)
    simp only [recordResults, List.foldl_cons]
    rw [recordResult_comm hxy]
  | trans hp1 hp2 ih1 ih2 =>
    intro hd m
    rw [ih1 hd m]
    exact ih2 ((hp1.map Prod.fst).nodup hd) m

/-- C1: after a result submission the contract evaluates consensus
exactly when the number of submitted results equals the committee size
(`_checkConsensus` leaves the state untouched otherwise), and then
computes `consensusIsUp = (upCount*100) >= (submittedCount *
consensusThreshold)` and `averageResponseTime =
floor(sum(responseTime)/submittedCount)`; in particular, for a committee
of 3 with threshold 66 and submissions up(200), up(180), down(5000), the
emitted consensus is up with average response time 1793. -/
theorem consensusEvaluationRule :
    (∀ (s : ChainState) (r ts : Nat),
      countSubmitted (s.monitoringResults r) (s.requestNodes r) ≠ (s.requestNodes r).length →
      checkConsensus r ts s = .ok s) ∧
    (∀ (s s2 : ChainState) (r ts : Nat),
      countSubmitted (s.monitoringResults r) (s.requestNodes r) = (s.requestNodes r).length →
      checkConsensus r ts s = .ok s2 →
      ∃ t, s2.events = s.events ++
        Event.ConsensusReached r
          (decide (countUp (s.monitoringResults r) (s.requestNodes r) * 100 ≥
            countSubmitted (s.monitoringResults r) (s.requestNodes r) * s.consensusThreshold))
          (totalResponseTime (s.monitoringResults r) (s.requestNodes r) /
            countSubmitted (s.monitoringResults r) (s.requestNodes r)) :: t) ∧
    Event.ConsensusReached 1 true 1793 ∈ scenarioFinal.events := by
  refine ⟨fun s r ts h => checkConsensus_not_full h, fun s s2 r ts hfull h => ?_, by decide⟩
  obtain ⟨t, ht⟩ := checkConsensus_full_events hfull h
  have hup : (consensusOutcome s.consensusThreshold (s.monitoringResults r) (s.requestNodes r)).1 =
      decide (countUp (s.monitoringResults r) (s.requestNodes r) * 100 ≥
        countSubmitted (s.monitoringResults r) (s.requestNodes r) * s.consensusThreshold) := rfl
  have havg : (consensusOutcome s.consensusThreshold (s.monitoringResults r) (s.requestNodes r)).2 =
      totalResponseTime (s.monitoringResults r) (s.requestNodes r) /
        countSubmitted (s.monitoringResults r) (s.requestNodes r) := by
    simp only [consensusOutcome]
    split
    · rfl
    · next hc =>
      have hz : countSubmitted (s.monitoringResults r) (s.requestNodes r) = 0 := by omega
      rw [hz, Nat.div_zero]
  exact ⟨t, by rw [ht, hup, havg]⟩

/-- Witness for C1: in the scenario state with one of three committee
results submitted, consensus is not evaluated and the state is
unchanged. -/
theorem consensusEvaluationRule_witness :
    countSubmitted (oneSubmitState.monitoringResults 1) (oneSubmitState.requestNodes 1) ≠
      (oneSubmitState.requestNodes 1).length ∧
    checkConsensus 1 40 oneSubmitState = .ok oneSubmitState :=
  ⟨by decide, consensusEvaluationRule.1 oneSubmitState 1 40 (by decide)⟩

/-- C2: at settlement of a round, every committee member whose submitted
`isUp` equals the consensus gets `successfulChecks+1`, `reputation+1`
(no cap) and a transfer of `rewardPerCheck`; every member whose `isUp`
differs gets `reputation-1` floored at 1 and no token movement; no
member receives both outcomes in the same round. -/
theorem settlementOutcomes {s s2 : ChainState} {r : Nat} {c : Bool}
    (hnd : (s.requestNodes r).Nodup) (hc : contractAddr ∉ s.requestNodes r)
    (h : distributeRewards r c s = .ok s2) :
    ∀ a ∈ s.requestNodes r, (s.monitoringResults r a).isSubmitted = true →
      (((s.monitoringResults r a).isUp = c →
          (s2.monitoringNodes a).successfulChecks =
            (s.monitoringNodes a).successfulChecks + 1 ∧
          (s2.monitoringNodes a).reputation = (s.monitoringNodes a).reputation + 1 ∧
          s2.balances a = s.balances a + (s.monitoringRequests r).reward) ∧
       ((s.monitoringResults r a).isUp ≠ c →
          (s2.monitoringNodes a).reputation =
            (if 1 < (s.monitoringNodes a).reputation then
              (s.monitoringNodes a).reputation - 1
            else (s.monitoringNodes a).reputation) ∧
          (1 ≤ (s.monitoringNodes a).reputation → 1 ≤ (s2.monitoringNodes a).reputation) ∧
          (s2.monitoringNodes a).successfulChecks = (s.monitoringNodes a).successfulChecks ∧
          s2.balances a = s.balances a) ∧
       ¬(s.balances a < s2.balances a ∧
          (s2.monitoringNodes a).reputation < (s.monitoringNodes a).reputation)) := by
  intro a ha hsub
  have heff := distLoop_effect (s.requestNodes r) h hnd hc a ha hsub
  by_cases hup : (s.monitoringResults r a).isUp = c
  · obtain ⟨hn, hb⟩ := heff.1 hup
    have hsc : (s2.monitoringNodes a).successfulChecks =
        (s.monitoringNodes a).successfulChecks + 1 := by rw [hn]
    have hrep : (s2.monitoringNodes a).reputation =
        (s.monitoringNodes a).reputation + 1 := by rw [hn]
    refine ⟨fun _ => ⟨hsc, hrep, hb⟩, fun hne => absurd hup hne, ?_⟩
    rintro ⟨-, hlt⟩
    rw [hrep] at hlt
    omega
  · obtain ⟨hn, hb⟩ := heff.2 hup
    have hba : s2.balances a = s.balances a := hb
    have hrep : (s2.monitoringNodes a).reputation =
        (if 1 < (s.monitoringNodes a).reputation then
          (s.monitoringNodes a).reputation - 1
        else (s.monitoringNodes a).reputation) := by
      rw [hn]
      by_cases h1r : 1 < (s.monitoringNodes a).reputation <;> simp [h1r]
    have hsc : (s2.monitoringNodes a).successfulChecks =
        (s.monitoringNodes a).successfulChecks := by
      rw [hn]
      by_cases h1r : 1 < (s.monitoringNodes a).reputation <;> simp [h1r]
    refine ⟨fun he => absurd he hup, fun _ => ⟨hrep, ?_, hsc, hba⟩, ?_⟩
    · intro h1
      rw [hrep]
      by_cases h1r : 1 < (s.monitoringNodes a).reputation <;> simp [h1r] <;> omega
    · rintro ⟨hlt, -⟩
      rw [hba] at hlt
      exact absurd hlt (lt_irrefl _)

/-- Witness for C2: settling the finished scenario once more rewards the
agreeing nodes 1 and 2 and penalises node 3, which also gets no token
movement. -/
theorem settlementOutcomes_witness :
    (scenarioFinal.requestNodes 1).Nodup ∧
    contractAddr ∉ scenarioFinal.requestNodes 1 ∧
    distributeRewards 1 true scenarioFinal = .ok resettledState ∧
    (resettledState.monitoringNodes 1).reputation =
      (scenarioFinal.monitoringNodes 1).reputation + 1 ∧
    resettledState.balances 1 =
      scenarioFinal.balances 1 + (scenarioFinal.monitoringRequests 1).reward ∧
    resettledState.balances 3 = scenarioFinal.balances 3 := by
  have h : distributeRewards 1 true scenarioFinal = .ok resettledState := by rfl
  refine ⟨by decide, by decide, h, ?_, ?_, ?_⟩
  · exact ((settlementOutcomes (by decide) (by decide) h 1 (by decide) (by rfl)).1
      (by rfl)).2.1
  · exact ((settlementOutcomes (by decide) (by decide) h 1 (by decide) (by rfl)).1
      (by rfl)).2.2
  · exact (((settlementOutcomes (by decide) (by decide) h 3 (by decide) (by rfl)).2.1
      (by decide)).2.2.2)

/-- C3: mutating operations are atomic — a reverted call leaves the
state exactly as it was, and a failed token transfer anywhere in a call
makes the whole call revert: the ERC20 stake pull of `registerNode` and
`addStake` (failing on insufficient balance or insufficient allowance),
the stake return of `unregisterNode`, and the reward payout inside
settlement all propagate the failure. -/
theorem transferAtomicity :
    (∀ (s : ChainState) (tx : Tx) (e : String),
      applyTx s tx = .error e → execTx s tx = s) ∧
    (∀ (s : ChainState) (sender : Addr) (ts : Nat),
      s.paused = false → (s.monitoringNodes sender).isActive = false →
      s.balances sender < s.minimumStake →
      ∃ e, registerNode sender ts s = .error e) ∧
    (∀ (s : ChainState) (sender : Addr) (ts : Nat),
      s.paused = false → (s.monitoringNodes sender).isActive = false →
      s.allowances sender contractAddr ≠ maxUint256 →
      s.allowances sender contractAddr < s.minimumStake →
      registerNode sender ts s = .error "ERC20InsufficientAllowance") ∧
    (∀ (s : ChainState) (sender : Addr) (amount : Nat),
      (s.monitoringNodes sender).isActive = true → amount ≠ 0 →
      s.balances sender < amount →
      ∃ e, addStake sender amount s = .error e) ∧
    (∀ (s : ChainState) (sender : Addr),
      (s.monitoringNodes sender).isActive = true →
      (s.monitoringNodes sender).stake ≠ 0 →
      s.balances contractAddr < (s.monitoringNodes sender).stake →
      ∃ e, unregisterNode sender s = .error e) ∧
    (∀ (s : ChainState) (r : Nat) (c : Bool) (w : Nat) (a : Addr) (rest : List Addr),
      (s.monitoringResults r a).isSubmitted = true →
      (s.monitoringResults r a).isUp = c →
      s.balances contractAddr < w →
      ∃ e, distributeRewardsLoop r c w (a :: rest) s = .error e) := by
  refine ⟨?_, ?_, ?_, ?_, ?_, ?_⟩
  · intro s tx e h
    unfold execTx
    rw [h]
  · intro s sender ts hp hact hlt
    simp only [registerNode, hp, hact, Bool.false_eq_true, if_false]
    obtain ⟨e, he⟩ := @erc20TransferFrom_insufficient_balance contractAddr sender
      contractAddr s.minimumStake s.balances s.allowances hlt
    rw [he]
    exact ⟨e, rfl⟩
  · intro s sender ts hp hact hna hlt
    simp only [registerNode, hp, hact, Bool.false_eq_true, if_false]
    rw [erc20TransferFrom_insufficient_allowance hna hlt]
  · intro s sender amount hact hne hlt
    simp only [addStake, hact, Bool.not_true, Bool.false_eq_true, if_false, if_neg hne]
    obtain ⟨e, he⟩ := @erc20TransferFrom_insufficient_balance contractAddr sender
      contractAddr amount s.balances s.allowances hlt
    rw [he]
    exact ⟨e, rfl⟩
  · intro s sender hact hne hlt
    simp only [unregisterNode, hact, Bool.not_true, Bool.false_eq_true, if_false,
      if_neg hne]
    obtain ⟨e, he⟩ := @erc20Transfer_insufficient contractAddr sender
      (s.monitoringNodes sender).stake s.balances hlt
    rw [he]
    exact ⟨e, rfl⟩
  · intro s r c w a rest hsub hup hlt
    simp only [distributeRewardsLoop]
    obtain ⟨e, he⟩ := settleNode_fail hsub hup hlt
    rw [he]
    exact ⟨e, rfl⟩

/-- Witness for C3: an account with zero balance cannot register, an
account with a sufficient balance but no allowance cannot register
either (the allowance failure aborts the call), and the reverted
registration leaves the deployment state unchanged. -/
theorem transferAtomicity_witness :
    initState.paused = false ∧
    (initState.monitoringNodes 7).isActive = false ∧
    initState.balances 7 < initState.minimumStake ∧
    (∃ e, registerNode 7 0 initState = .error e) ∧
    initState.allowances 4 contractAddr ≠ maxUint256 ∧
    initState.allowances 4 contractAddr < initState.minimumStake ∧
    registerNode 4 0 initState = .error "ERC20InsufficientAllowance" ∧
    execTx initState (.register 4 0) = initState := by
  have h3 := transferAtomicity.2.2.1 initState 4 0 rfl rfl (by decide) (by decide)
  exact ⟨rfl, rfl, by decide, transferAtomicity.2.1 initState 7 0 rfl rfl (by decide),
    by decide, by decide, h3, transferAtomicity.1 initState (.register 4 0) _ h3⟩

/-- C4: once a `submitMonitoringResult` call for a (requestId, observer)
pair has succeeded, every later submission by the same observer for the
same request fails — whatever transactions happen in between, consensus
or not — and the failed call leaves the state unchanged. -/
theorem duplicateSubmissionRejected {s0 s1 : ChainState} {a : Addr} {r ts0 : Nat}
    {u0 : Bool} {rt0 : Nat}
    (h : submitMonitoringResult a ts0 r u0 rt0 s0 = .ok s1) :
    ∀ (txs : List Tx) (ts : Nat) (u : Bool) (rt : Nat),
      (∃ e, submitMonitoringResult a ts r u rt (applyTrace s1 txs) = .error e) ∧
      execTx (applyTrace s1 txs) (.submit a ts r u rt) = applyTrace s1 txs := by
  intro txs ts u rt
  have hsub1 : (s1.monitoringResults r a).isSubmitted = true := by
    rw [submitMonitoringResult_results h, recordResult_at_same]
  have hsubN : ((applyTrace s1 txs).monitoringResults r a).isSubmitted = true :=
    applyTrace_isSubmitted_mono txs hsub1
  obtain ⟨e, he⟩ := submitMonitoringResult_fails_of_submitted hsubN
  refine ⟨⟨e, he⟩, ?_⟩
  unfold execTx
  have happ : applyTx (applyTrace s1 txs) (.submit a ts r u rt) = .error e := he
  rw [happ]

/-- Witness for C4: after node 1 has submitted for request 1 and node 2
has also reported, a second submission by node 1 (with different values)
is rejected and changes nothing. -/
theorem duplicateSubmissionRejected_witness :
    submitMonitoringResult 1 30 1 true 200 (applyTrace initState (scenarioTrace.take 4)) =
      .ok oneSubmitState ∧
    (∃ e, submitMonitoringResult 1 99 1 false 7
        (applyTrace oneSubmitState [.submit 2 31 1 true 180]) = .error e) ∧
    execTx (applyTrace oneSubmitState [.submit 2 31 1 true 180])
        (.submit 1 99 1 false 7) =
      applyTrace oneSubmitState [.submit 2 31 1 true 180] := by
  have h : submitMonitoringResult 1 30 1 true 200
      (applyTrace initState (scenarioTrace.take 4)) = .ok oneSubmitState := by rfl
  exact ⟨h, (duplicateSubmissionRejected h [.submit 2 31 1 true 180] 99 false 7).1,
    (duplicateSubmissionRejected h [.submit 2 31 1 true 180] 99 false 7).2⟩

/-- C5: the consensus outcome (vote and average response time) is a pure
function of the multiset of submitted results — permuting the order of
the committee submissions produces the identical results mapping and
hence the identical outcome — and a `_checkConsensus` run changes the
event log (reaches consensus) exactly when the number of submitted
results equals the committee size. -/
theorem consensusOrderInvariance :
    (∀ (r : Nat) (m : Nat → Addr → MonitoringResult)
       (subs1 subs2 : List (Addr × Bool × Nat × Nat)) (threshold : Nat)
       (nodes : List Addr),
      subs1.Perm subs2 → (subs1.map Prod.fst).Nodup →
      consensusOutcome threshold (recordResults r subs1 m r) nodes =
        consensusOutcome threshold (recordResults r subs2 m r) nodes) ∧
    (∀ (s s2 : ChainState) (r ts : Nat),
      checkConsensus r ts s = .ok s2 →
      (s2.events ≠ s.events ↔
        countSubmitted (s.monitoringResults r) (s.requestNodes r) =
          (s.requestNodes r).length)) := by
  constructor
  · intro r m subs1 subs2 threshold nodes hp hd
    rw [recordResults_perm hp hd m]
  · intro s s2 r ts h
    by_cases hfull : countSubmitted (s.monitoringResults r) (s.requestNodes r) =
        (s.requestNodes r).length
    · obtain ⟨t, ht⟩ := checkConsensus_full_events hfull h
      refine ⟨fun _ => hfull, fun _ => ?_⟩
      rw [ht]
      intro heq
      have hlen := congrArg List.length heq
      simp at hlen
    · rw [checkConsensus_not_full hfull] at h
      simp only [Except.ok.injEq] at h
      subst h
      simp [hfull]

/-- Witness for C5: the scenario submissions recorded in two different
orders yield the same consensus outcome. -/
theorem consensusOrderInvariance_witness :
    ([((1 : Addr), true, 200, 30), (2, true, 180, 31), (3, false, 5000, 32)] :
        List (Addr × Bool × Nat × Nat)).Perm
      [(3, false, 5000, 32), (1, true, 200, 30), (2, true, 180, 31)] ∧
    (([((1 : Addr), true, 200, 30), (2, true, 180, 31), (3, false, 5000, 32)] :
        List (Addr × Bool × Nat × Nat)).map Prod.fst).Nodup ∧
    consensusOutcome 66
        (recordResults 1 [(1, true, 200, 30), (2, true, 180, 31), (3, false, 5000, 32)]
          (fun _ _ => MonitoringResult.empty) 1) [1, 2, 3] =
      consensusOutcome 66
        (recordResults 1 [(3, false, 5000, 32), (1, true, 200, 30), (2, true, 180, 31)]
          (fun _ _ => MonitoringResult.empty) 1) [1, 2, 3] :=
  ⟨by decide, by decide,
    consensusOrderInvariance.1 1 (fun _ _ => MonitoringResult.empty) _ _ 66 [1, 2, 3]
      (by decide) (by decide)⟩

/-- C6: an address whose token balance covers the minimum stake (and
that has granted the contract the matching ERC20 allowance, the
precondition `transferFrom` imposes) can register and immediately
unregister, and this round trip restores its token balance exactly —
the full stake comes back, with no slashing. -/
theorem registerUnregisterConservation {s : ChainState} {sender : Addr} {ts : Nat}
    (hp : s.paused = false) (hact : (s.monitoringNodes sender).isActive = false)
    (hbal : s.minimumStake ≤ s.balances sender)
    (hallow : s.minimumStake ≤ s.allowances sender contractAddr)
    (hs0 : sender ≠ 0) (hsc : sender ≠ contractAddr) (hpos : 0 < s.minimumStake) :
    ∃ s1 s2, registerNode sender ts s = .ok s1 ∧ unregisterNode sender s1 = .ok s2 ∧
      s2.balances sender = s.balances sender := by
  obtain ⟨allow2, htf⟩ := erc20TransferFrom_ok_of hs0 contractAddr_ne_zero hbal hallow
  have hreg : registerNode sender ts s = .ok
      { s with
        balances := updFn (updFn s.balances sender (s.balances sender - s.minimumStake))
          contractAddr
          (updFn s.balances sender (s.balances sender - s.minimumStake) contractAddr +
            s.minimumStake)
        allowances := allow2
        monitoringNodes := updFn s.monitoringNodes sender
          ⟨sender, s.minimumStake, 100, 0, 0, true, ts⟩
        activeNodes := s.activeNodes ++ [sender]
        events := s.events ++ [.MonitoringNodeRegistered sender s.minimumStake] } := by
    simp only [registerNode, hp, hact, Bool.false_eq_true, if_false]
    rw [htf]
  have hkey : ∀ (s1 : ChainState),
      s1.monitoringNodes sender = ⟨sender, s.minimumStake, 100, 0, 0, true, ts⟩ →
      s1.balances sender = s.balances sender - s.minimumStake →
      s.minimumStake ≤ s1.balances contractAddr →
      ∃ s2, unregisterNode sender s1 = .ok s2 ∧
        s2.balances sender = s.balances sender := by
    intro s1 hn hbs hbc
    have hact1 : (s1.monitoringNodes sender).isActive = true := by rw [hn]
    have hstake : (s1.monitoringNodes sender).stake = s.minimumStake := by rw [hn]
    have hne0 : ¬(s1.monitoringNodes sender).stake = 0 := by rw [hstake]; omega
    simp only [unregisterNode, hact1, Bool.not_true, Bool.false_eq_true, if_false,
      if_neg hne0]
    rw [erc20Transfer_ok_of contractAddr_ne_zero hs0 (by rw [hstake]; exact hbc)]
    refine ⟨_, rfl, ?_⟩
    show updFn (updFn s1.balances contractAddr
        (s1.balances contractAddr - (s1.monitoringNodes sender).stake)) sender
        (updFn s1.balances contractAddr
          (s1.balances contractAddr - (s1.monitoringNodes sender).stake) sender +
          (s1.monitoringNodes sender).stake) sender = s.balances sender
    rw [updFn_same, updFn_ne _ _ _ hsc, hbs, hstake]
    omega
  obtain ⟨s2, hu, hb2⟩ := hkey
    { s with
      balances := updFn (updFn s.balances sender (s.balances sender - s.minimumStake))
        contractAddr
        (updFn s.balances sender (s.balances sender - s.minimumStake) contractAddr +
          s.minimumStake)
      allowances := allow2
      monitoringNodes := updFn s.monitoringNodes sender
        ⟨sender, s.minimumStake, 100, 0, 0, true, ts⟩
      activeNodes := s.activeNodes ++ [sender]
      events := s.events ++ [.MonitoringNodeRegistered sender s.minimumStake] }
    (updFn_same _ _ _)
    (by dsimp only; rw [updFn_ne _ _ _ hsc, updFn_same])
    (by dsimp only; rw [updFn_same]; exact Nat.le_add_left _ _)
  exact ⟨_, s2, hreg, hu, hb2⟩

/-- Witness for C6: account 1 of the deployment state, which has both
balance and allowance for the minimum stake, registers and unregisters,
ending with its starting balance. -/
theorem registerUnregisterConservation_witness :
    initState.paused = false ∧
    (initState.monitoringNodes 1).isActive = false ∧
    initState.minimumStake ≤ initState.balances 1 ∧
    initState.minimumStake ≤ initState.allowances 1 contractAddr ∧
    (1 : Addr) ≠ 0 ∧
    (1 : Addr) ≠ contractAddr ∧
    0 < initState.minimumStake ∧
    ∃ s1 s2, registerNode 1 10 initState = .ok s1 ∧ unregisterNode 1 s1 = .ok s2 ∧
      s2.balances 1 = initState.balances 1 :=
  ⟨rfl, rfl, by decide, by decide, by decide, by decide, by decide,
    registerUnregisterConservation rfl rfl (by decide) (by decide) (by decide)
      (by decide) (by decide)⟩

/-- C7: a successful `createMonitoringRequest` assigns as committee
exactly the first `min(3, activeCount)` active observers in registry
order, the call fails whenever the active set is empty, and hence no
created request has an empty committee. -/
theorem committeeAssignment :
    (∀ (s : ChainState) (sender ts : Nat) (url : String)
       (interval timeout rewardPerCheck : Nat) (s2 : ChainState) (rid : Nat),
      createMonitoringRequest sender ts url interval timeout rewardPerCheck s =
        .ok (s2, rid) →
      s.requestNodes s.nextRequestId = [] →
      rid = s.nextRequestId ∧
      s2.requestNodes rid = s.activeNodes.take (min 3 s.activeNodes.length) ∧
      s2.requestNodes rid ≠ []) ∧
    (∀ (s : ChainState) (sender ts : Nat) (url : String)
       (interval timeout rewardPerCheck : Nat),
      s.activeNodes = [] →
      ∃ e, createMonitoringRequest sender ts url interval timeout rewardPerCheck s =
        .error e) := by
  constructor
  · intro s sender ts url interval timeout rewardPerCheck s2 rid h hfresh
    simp only [createMonitoringRequest] at h
    split at h
    · exact absurd h (by simp)
    · split at h
      · exact absurd h (by simp)
      · split at h
        · exact absurd h (by simp)
        · split at h
          · exact absurd h (by simp)
          · split at h
            · exact absurd h (by simp)
            · split at h
              · exact absurd h (by simp)
              · next s3 heq =>
                obtain ⟨hlen, rfl⟩ := assignNodesToRequest_elim heq
                simp only [Except.ok.injEq, Prod.mk.injEq] at h
                obtain ⟨h1, h2⟩ := h
                subst h1
                subst h2
                refine ⟨rfl, ?_, ?_⟩
                · show updFn s.requestNodes s.nextRequestId
                    (s.requestNodes s.nextRequestId ++
                      s.activeNodes.take (min 3 s.activeNodes.length)) s.nextRequestId =
                    s.activeNodes.take (min 3 s.activeNodes.length)
                  rw [updFn_same, hfresh, List.nil_append]
                · show updFn s.requestNodes s.nextRequestId
                    (s.requestNodes s.nextRequestId ++
                      s.activeNodes.take (min 3 s.activeNodes.length)) s.nextRequestId ≠ []
                  rw [updFn_same, hfresh, List.nil_append]
                  intro hnil
                  rcases List.take_eq_nil_iff.mp hnil with hz | hz
                  · have : s.activeNodes.length = 0 := by
                      rcases Nat.min_eq_zero_iff.mp hz with h3 | h3
                      · omega
                      · exact h3
                    exact hlen this
                  · exact hlen (by rw [hz]; rfl)
  · intro s sender ts url interval timeout rewardPerCheck hempty
    simp only [createMonitoringRequest]
    split
    · exact ⟨_, rfl⟩
    · split
      · exact ⟨_, rfl⟩
      · split
        · exact ⟨_, rfl⟩
        · split
          · exact ⟨_, rfl⟩
          · split
            · exact ⟨_, rfl⟩
            · have hassign := @assignNodesToRequest_empty s.nextRequestId
                { s with
                  nextRequestId := s.nextRequestId + 1
                  monitoringRequests := updFn s.monitoringRequests s.nextRequestId
                    ⟨s.nextRequestId, sender, url, interval, timeout, rewardPerCheck,
                      true, ts, ts⟩
                  activeRequests := s.activeRequests ++ [s.nextRequestId] }
                hempty
              rw [hassign]
              exact ⟨_, rfl⟩

/-- Witness for C7: creating a request after three registrations assigns
the committee [1, 2, 3], and creation on the empty deployment state
fails. -/
theorem committeeAssignment_witness :
    createMonitoringRequest 4 20 "https://example.com" 300 5000 (10 ^ 18) postRegState =
      .ok createdPair ∧
    postRegState.requestNodes postRegState.nextRequestId = [] ∧
    createdPair.2 = postRegState.nextRequestId ∧
    createdPair.1.requestNodes createdPair.2 =
      postRegState.activeNodes.take (min 3 postRegState.activeNodes.length) ∧
    createdPair.1.requestNodes createdPair.2 ≠ [] ∧
    (∃ e, createMonitoringRequest 4 20 "https://example.com" 300 5000 (10 ^ 18)
        initState = .error e) := by
  have h : createMonitoringRequest 4 20 "https://example.com" 300 5000 (10 ^ 18)
      postRegState = .ok (createdPair.1, createdPair.2) := by rfl
  obtain ⟨h1, h2, h3⟩ := committeeAssignment.1 postRegState 4 20 "https://example.com"
    300 5000 (10 ^ 18) createdPair.1 createdPair.2 h (by decide)
  exact ⟨h, by decide, h1, h2, h3,
    committeeAssignment.2 initState 4 20 "https://example.com" 300 5000 (10 ^ 18) rfl⟩

/-- C8: a `createMonitoringRequest` call with interval below 60 seconds,
empty URL, zero reward, or timeout above the configured maximum is
rejected, creates no request record and leaves the request-id counter
untouched. -/
theorem requestValidation :
    ∀ (s : ChainState) (sender ts : Nat) (url : String)
      (interval timeout rewardPerCheck : Nat),
      interval < 60 ∨ url = "" ∨ rewardPerCheck = 0 ∨ s.maxResponseTime < timeout →
      (∃ e, createMonitoringRequest sender ts url interval timeout rewardPerCheck s =
        .error e) ∧
      execTx s (.create sender ts url interval timeout rewardPerCheck) = s := by
  intro s sender ts url interval timeout rewardPerCheck hbad
  have herr : ∃ e,
      createMonitoringRequest sender ts url interval timeout rewardPerCheck s =
        .error e := by
    simp only [createMonitoringRequest]
    split
    · exact ⟨_, rfl⟩
    · split
      · exact ⟨_, rfl⟩
      · split
        · exact ⟨_, rfl⟩
        · split
          · exact ⟨_, rfl⟩
          · split
            · exact ⟨_, rfl⟩
            · next hurl hint htime hrew =>
              exfalso
              rcases hbad with hb | hb | hb | hb
              · exact hint hb
              · exact hurl (by rw [hb]; rfl)
              · exact hrew hb
              · exact htime hb
  obtain ⟨e, he⟩ := herr
  exact ⟨⟨e, he⟩, by simp [execTx, applyTx, he]⟩

/-- Witness for C8: a 30-second interval is rejected on the deployment
state and consumes no request id. -/
theorem requestValidation_witness :
    ((30 : Nat) < 60 ∨ "https://example.com" = "" ∨ (10 ^ 18 : Nat) = 0 ∨
      initState.maxResponseTime < 5000) ∧
    (∃ e, createMonitoringRequest 4 20 "https://example.com" 30 5000 (10 ^ 18)
      initState = .error e) ∧
    execTx initState (.create 4 20 "https://example.com" 30 5000 (10 ^ 18)) =
      initState :=
  ⟨Or.inl (by decide),
    (requestValidation initState 4 20 "https://example.com" 30 5000 (10 ^ 18)
      (Or.inl (by decide))).1,
    (requestValidation initState 4 20 "https://example.com" 30 5000 (10 ^ 18)
      (Or.inl (by decide))).2⟩

/-- C10: while paused, exactly `registerNode` and
`createMonitoringRequest` are blocked by the pause flag;
`submitMonitoringResult`, `unregisterNode` and `addStake` never read the
flag — on a paused state they behave exactly as on the unpaused one. -/
theorem pauseGating :
    (∀ (s : ChainState) (sender : Addr) (ts : Nat), s.paused = true →
      ∃ e, registerNode sender ts s = .error e) ∧
    (∀ (s : ChainState) (sender ts : Nat) (url : String)
       (interval timeout rewardPerCheck : Nat), s.paused = true →
      ∃ e, createMonitoringRequest sender ts url interval timeout rewardPerCheck s =
        .error e) ∧
    (∀ (s : ChainState) (b : Bool) (sender : Addr),
      unregisterNode sender (setPaused b s) =
        Except.map (setPaused b) (unregisterNode sender s)) ∧
    (∀ (s : ChainState) (b : Bool) (sender : Addr) (amount : Nat),
      addStake sender amount (setPaused b s) =
        Except.map (setPaused b) (addStake sender amount s)) ∧
    (∀ (s : ChainState) (b : Bool) (sender : Addr) (ts requestId : Nat) (isUp : Bool)
       (responseTime : Nat),
      submitMonitoringResult sender ts requestId isUp responseTime (setPaused b s) =
        Except.map (setPaused b)
          (submitMonitoringResult sender ts requestId isUp responseTime s)) := by
  refine ⟨?_, ?_, ?_, ?_, ?_⟩
  · intro s sender ts hp
    simp [registerNode, hp]
  · intro s sender ts url interval timeout rewardPerCheck hp
    simp [createMonitoringRequest, hp]
  · intro s b sender
    exact unregisterNode_setPaused sender b s
  · intro s b sender amount
    exact addStake_setPaused sender amount b s
  · intro s b sender ts requestId isUp responseTime
    exact submitMonitoringResult_setPaused sender ts requestId isUp responseTime b s

/-- Witness for C10: on the paused deployment state registration is
rejected, while `unregisterNode` behaves exactly as unpaused. -/
theorem pauseGating_witness :
    (setPaused true initState).paused = true ∧
    (∃ e, registerNode 1 10 (setPaused true initState) = .error e) ∧
    unregisterNode 5 (setPaused true initState) =
      Except.map (setPaused true) (unregisterNode 5 initState) :=
  ⟨rfl, pauseGating.1 (setPaused true initState) 1 10 rfl,
    pauseGating.2.2.1 initState true 5⟩

end UptimeMonitor

namespace ObserverRuntime

/-- Counterexample to C9: a 503 reply after 1234 ms is classified down,
but `httpCheck` reports the elapsed 1234 ms as `responseTime` — not 0 —
because its catch branch also computes `Date.now() - startTime`; the
claim that `responseTime` is 0 whenever the check is down is false. -/
theorem httpCheckDownResponseTime_counterexample :
    (httpCheck (.response 503 1234)).isUp = false ∧
    (httpCheck (.response 503 1234)).responseTime = 1234 ∧
    ¬(∀ o : ProbeOutcome, (httpCheck o).isUp = false →
        (httpCheck o).responseTime = 0) := by
  refine ⟨rfl, rfl, fun hall => ?_⟩
  have h := hall (.response 503 1234) rfl
  simp [httpCheck] at h

/-- C9 as amended: `httpCheck` classifies a response with status below
500 as up and any 5xx response, timeout or connection error as down, and
the `responseTime` it reports is the elapsed wall-clock time in every
case — when up and when down alike. -/
theorem httpCheckClassification (o : ProbeOutcome) :
    ((httpCheck o).isUp = true ↔
      ∃ status elapsed, o = .response status elapsed ∧ status < 500) ∧
    (httpCheck o).responseTime = o.elapsed := by
  cases o with
  | response status elapsed =>
    by_cases h : status < 500
    · simp [httpCheck, ProbeOutcome.elapsed, h]
    · simp [httpCheck, ProbeOutcome.elapsed, h]
  | networkError elapsed =>
    simp [httpCheck, ProbeOutcome.elapsed]

/-- Witness for C9: a 200 reply after 50 ms evaluates the amended claim
at a concrete probe outcome. -/
theorem httpCheckClassification_witness :
    ((httpCheck (.response 200 50)).isUp = true ↔
      ∃ status elapsed, ProbeOutcome.response 200 50 = .response status elapsed ∧
        status < 500) ∧
    (httpCheck (.response 200 50)).responseTime =
      (ProbeOutcome.response 200 50).elapsed :=
  httpCheckClassification (.response 200 50)

end ObserverRuntime
